import Mathlib

/-!
Verification development for a Telegram school-assistant bot (`src/main.py`).

The Python source is shallowly embedded: dates are modelled by their
proleptic-Gregorian ordinal (`Nat`, with `0001-01-01 = 1`, exactly as
Python's `date.toordinal()`), strings by Lean `String` (a wrapper around
`List Char` in this toolchain), dictionaries by association lists, and the
ambient clock (`datetime.now().date()`) by an explicit `today` parameter.
Lowercasing is modelled for the ASCII and Cyrillic repertoires the program
uses.  A Python `ValueError` escaping a function is modelled by
`Except.error`.
-/

namespace SchoolBot

/-! ## Characters and strings -/

/-- ASCII whitespace, the characters `str.strip()` removes on the inputs
this program sees (space, tab, LF, VT, FF, CR). -/
def isSpaceChar (c : Char) : Bool :=
  c.toNat = 32 || (9 ≤ c.toNat && c.toNat ≤ 13)

/-- ASCII digit, as used by the `\d` regex class and `str.isdigit` on the
program's inputs. -/
def isDigitChar (c : Char) : Bool :=
  48 ≤ c.toNat && c.toNat ≤ 57

/-- The separator class of `_parse_numeric_date_token`'s regex: dot,
dash, or slash. -/
def isDateSepChar (c : Char) : Bool :=
  c = '.' || c = '-' || c = '/'

/-- The word-character class `[A-Za-z0-9_]` of `normalize_username_input`. -/
def isWordChar (c : Char) : Bool :=
  (65 ≤ c.toNat && c.toNat ≤ 90) || (97 ≤ c.toNat && c.toNat ≤ 122) ||
    (48 ≤ c.toNat && c.toNat ≤ 57) || c.toNat = 95

/-- `str.lower()` restricted to ASCII `A–Z` and the Cyrillic block
`А–Я`/`Ё` that the program's literals use. -/
def ruLowerChar (c : Char) : Char :=
  if 65 ≤ c.toNat ∧ c.toNat ≤ 90 then Char.ofNat (c.toNat + 32)
  else if 0x410 ≤ c.toNat ∧ c.toNat ≤ 0x42F then Char.ofNat (c.toNat + 32)
  else if c.toNat = 0x401 then Char.ofNat 0x451
  else c

/-- `str.lower()` on a whole string. -/
def ruLower (s : String) : String :=
  String.mk (s.data.map ruLowerChar)

/-- Strip from the front and the back (`str.strip()`). -/
def stripList (cs : List Char) : List Char :=
  ((cs.dropWhile isSpaceChar).reverse.dropWhile isSpaceChar).reverse

/-- `str.strip()`. -/
def stripStr (s : String) : String :=
  String.mk (stripList s.data)

/-- `str.isdigit()`: non-empty and all digits. -/
def isDigitStr (s : String) : Bool :=
  !s.data.isEmpty && s.data.all isDigitChar

/-- Value of one ASCII digit character. -/
def digitVal (c : Char) : Nat := c.toNat - 48

/-- `int(s)` for an all-digit string. -/
def natOfDigits (s : String) : Nat :=
  s.data.foldl (fun acc c => acc * 10 + digitVal c) 0

/-! ## Calendar arithmetic (Python `datetime.date`)

A date is its proleptic-Gregorian ordinal: `0001-01-01 ↦ 1`, so
`d.weekday() = (ord + 6) % 7` with Monday = 0. -/

/-- Gregorian leap year. -/
def isLeapYear (y : Nat) : Bool :=
  y % 4 = 0 && (y % 100 ≠ 0 || y % 400 = 0)

/-- Days in month `m` of year `y` (for `1 ≤ m ≤ 12`). -/
def daysInMonth (y m : Nat) : Nat :=
  if m = 2 then (if isLeapYear y then 29 else 28)
  else if m = 4 ∨ m = 6 ∨ m = 9 ∨ m = 11 then 30
  else 31

/-- Days in year `y` before month `m`. -/
def daysBeforeMonth (y m : Nat) : Nat :=
  let base :=
    match m with
    | 1 => 0 | 2 => 31 | 3 => 59 | 4 => 90 | 5 => 120 | 6 => 151
    | 7 => 181 | 8 => 212 | 9 => 243 | 10 => 273 | 11 => 304 | _ => 334
  if 3 ≤ m ∧ isLeapYear y then base + 1 else base

/-- `date(y, m, d).toordinal()` for a valid calendar date. -/
def toOrd (y m d : Nat) : Nat :=
  365 * (y - 1) + (y - 1) / 4 - (y - 1) / 100 + (y - 1) / 400 +
    daysBeforeMonth y m + d

/-- Validity check of the `date` constructor (`MINYEAR = 1`,
`MAXYEAR = 9999`). -/
def dateValid (y m d : Nat) : Bool :=
  1 ≤ y && y ≤ 9999 && 1 ≤ m && m ≤ 12 && 1 ≤ d && d ≤ daysInMonth y m

/-- `date(y, m, d)`: the ordinal when valid, `none` when the constructor
would raise `ValueError`. -/
def mkDate (y m d : Nat) : Option Nat :=
  if dateValid y m d then some (toOrd y m d) else none

/-- `date.weekday()`: Monday = 0 … Sunday = 6. -/
def weekdayOfOrd (o : Nat) : Nat := (o + 6) % 7

/-- A calendar date as the triple Python's `date` exposes (`.year`,
`.month`, `.day`); used for `datetime.now().date()`. -/
structure Ymd where
  y : Nat
  m : Nat
  d : Nat
deriving DecidableEq, Repr

/-- Ordinal of a `Ymd`. -/
def Ymd.ord (t : Ymd) : Nat := toOrd t.y t.m t.d

/-! ## Configuration (`Config`) -/

/-- The static configuration dataclass; dates carried as ordinals. -/
structure Config where
  homework_ttl_days : Nat := 14
  school_start : Nat := toOrd 2024 9 2
  holiday_periods : List (Nat × Nat) := [(toOrd 2024 6 1, toOrd 2024 8 31)]
deriving DecidableEq, Repr

/-! ## Calendar/Duty engine (`is_weekend`, `is_holiday`, `cmd_duty`,
`duty_reminder_job`) -/

/-- `is_weekend`: `d.weekday() in (5, 6)`. -/
def is_weekend (o : Nat) : Bool :=
  weekdayOfOrd o = 5 || weekdayOfOrd o = 6

/-- `is_holiday`: inside some closed interval of `cfg.holiday_periods`. -/
def is_holiday (o : Nat) (cfg : Config) : Bool :=
  cfg.holiday_periods.any (fun p => p.1 ≤ o && o ≤ p.2)

/-- Iteration core of the school-day counting `while` loop, structural
on the number of remaining iterations. -/
def schoolDayGo (cfg : Config) (today : Nat) : Nat → Nat → Nat
  | 0, _ => 0
  | fuel + 1, d =>
    if d ≤ today then
      (if !is_weekend d && !is_holiday d cfg then 1 else 0) +
        schoolDayGo cfg today fuel (d + 1)
    else 0

/-- The school-day counting `while` loop shared verbatim by `cmd_duty`
and `duty_reminder_job`: counts dates from `d` through `today` that are
neither weekend nor holiday. -/
def schoolDayLoop (cfg : Config) (today : Nat) (d : Nat) : Nat :=
  schoolDayGo cfg today (today + 1 - d) d

def msgRosterEmpty : String := "Список дежурных пуст."
def msgYearNotStarted : String := "Учебный год ещё не начался."
def msgNoDuty : String := "Сегодня дежурных нет! Отдыхайте 😎"

/-- Reply text of `cmd_duty` (the interactive `/d` command), with the
duty roster read from the store and the clock passed explicitly. -/
def cmd_duty (cfg : Config) (duty_list : List String) (today : Nat) :
    String :=
  if duty_list.isEmpty then msgRosterEmpty
  else if today < cfg.school_start then msgYearNotStarted
  else if is_weekend today || is_holiday today cfg then msgNoDuty
  else
    let day_counter := schoolDayLoop cfg today cfg.school_start
    let idx := (day_counter - 1) % duty_list.length
    "Сегодня дежурный: " ++ duty_list.getD idx ""

/-- The settings record (`settings.json`): broadcast chat id and admin
handles. -/
structure Settings where
  chat_id : Option Int
  admins : List String
deriving DecidableEq, Repr

/-- Message sent by the scheduled `duty_reminder_job`, `none` when it
sends nothing.  Python's `if not chat_id: return` drops both a missing
and a zero chat id. -/
def duty_reminder_job (cfg : Config) (s : Settings)
    (duty_list : List String) (today : Nat) : Option String :=
  match s.chat_id with
  | none => none
  | some cid =>
    if cid = 0 then none
    else if duty_list.isEmpty then some msgRosterEmpty
    else if today < cfg.school_start then some msgYearNotStarted
    else if is_weekend today || is_holiday today cfg then some msgNoDuty
    else
      let day_counter := schoolDayLoop cfg today cfg.school_start
      let idx := (day_counter - 1) % duty_list.length
      some ("Сегодня дежурный: " ++ duty_list.getD idx "")

/-! ## Homework engine: ISO parsing, expiry, sweep -/

/-- `date.fromisoformat` on the `YYYY-MM-DD` keys the program writes:
the ordinal, or `none` if the key is not a valid ISO date. -/
def parseIso (s : String) : Option Nat :=
  match s.data with
  | [y1, y2, y3, y4, '-', m1, m2, '-', d1, d2] =>
    if isDigitChar y1 && isDigitChar y2 && isDigitChar y3 && isDigitChar y4
        && isDigitChar m1 && isDigitChar m2 && isDigitChar d1
        && isDigitChar d2 then
      let y := ((digitVal y1 * 10 + digitVal y2) * 10 + digitVal y3) * 10
        + digitVal y4
      let m := digitVal m1 * 10 + digitVal m2
      let d := digitVal d1 * 10 + digitVal d2
      mkDate y m d
    else none
  | _ => none

/-- `expiry_of_homework`: assignment date plus the TTL. -/
def expiry_of_homework (d : Nat) (cfg : Config) : Nat :=
  d + cfg.homework_ttl_days

/-- `cleanup_homework_in_memory`: drop entries whose key parses as a
date strictly past expiry, keep everything else (unparsable keys pass
through), and count removals.  The dict is an ordered association
list. -/
def cleanup_homework_in_memory (hw : List (String × String))
    (cfg : Config) (today : Nat) : List (String × String) × Nat :=
  match hw with
  | [] => ([], 0)
  | (k, v) :: rest =>
    let r := cleanup_homework_in_memory rest cfg today
    match parseIso k with
    | none => ((k, v) :: r.1, r.2)
    | some d =>
      if today > expiry_of_homework d cfg then (r.1, r.2 + 1)
      else ((k, v) :: r.1, r.2)

/-! ## Homework engine: date parsing from user tokens -/

def DOW_SHORT : List String := ["пн", "вт", "ср", "чт", "пт", "сб", "вс"]

def DOW_FULL : List String :=
  ["понедельник", "вторник", "среда", "четверг", "пятница", "суббота",
    "воскресенье"]

def DOW_CANON : List String :=
  ["Понедельник", "Вторник", "Среда", "Четверг", "Пятница"]

def RU_MONTHS : List (String × Nat) :=
  [("январь", 1), ("февраль", 2), ("март", 3), ("апрель", 4), ("май", 5),
   ("июнь", 6), ("июль", 7), ("август", 8), ("сентябрь", 9),
   ("октябрь", 10), ("ноябрь", 11), ("декабрь", 12),
   ("января", 1), ("февраля", 2), ("марта", 3), ("апреля", 4), ("мая", 5),
   ("июня", 6), ("июля", 7), ("августа", 8), ("сентября", 9),
   ("октября", 10), ("ноября", 11), ("декабря", 12)]

/-- `_parse_numeric_date_token`: full match of
`(\d{1,2}) sep (\d{1,2})` on the stripped token, where `sep` is dot,
dash, or slash; returns `(day, month)`. -/
def parse_numeric_date_token (s : String) : Option (Nat × Nat) :=
  match stripList s.data with
  | [a, x, b] =>
    if isDigitChar a && isDateSepChar x && isDigitChar b then
      some (digitVal a, digitVal b)
    else none
  | [a, b, x, c] =>
    if isDigitChar a && isDigitChar b && isDateSepChar x && isDigitChar c
    then some (digitVal a * 10 + digitVal b, digitVal c)
    else if isDigitChar a && isDateSepChar b && isDigitChar x
        && isDigitChar c
    then some (digitVal a, digitVal x * 10 + digitVal c)
    else none
  | [a, b, x, c, d] =>
    if isDigitChar a && isDigitChar b && isDateSepChar x && isDigitChar c
        && isDigitChar d
    then some (digitVal a * 10 + digitVal b, digitVal c * 10 + digitVal d)
    else none
  | _ => none

/-- `next_weekday`: the next date strictly after `from_date` whose
weekday is `target_weekday`. -/
def next_weekday (from_date : Ymd) (target_weekday : Nat) : Nat :=
  let delta :=
    ((target_weekday : Int) - (weekdayOfOrd from_date.ord : Int) + 7) % 7
  let delta := if delta = 0 then 7 else delta
  from_date.ord + delta.toNat

instance : DecidableEq (Except Unit (Option (Nat × Nat))) := fun a b =>
  match a, b with
  | .ok x, .ok y => decidable_of_iff (x = y) (by simp)
  | .error x, .error y => decidable_of_iff (x = y) (by simp)
  | .ok _, .error _ => isFalse (by simp)
  | .error _, .ok _ => isFalse (by simp)

/-- `parse_date_and_consumed`: result is `(date ordinal, tokens
consumed)`; `.ok none` is Python's `return None`, `.error ()` a
`ValueError` raised by the `date` constructor inside the function. -/
def parse_date_and_consumed (today : Ymd) (args : List String) :
    Except Unit (Option (Nat × Nat)) :=
  match args with
  | [] => .ok none
  | arg0 :: rest =>
    let a0 := stripStr (ruLower arg0)
    if a0 = "завтра" then .ok (some (today.ord + 1, 1))
    else if a0 ∈ DOW_SHORT then
      .ok (some (next_weekday today (DOW_SHORT.indexOf a0), 1))
    else if a0 ∈ DOW_FULL then
      .ok (some (next_weekday today (DOW_FULL.indexOf a0), 1))
    else
      match parse_numeric_date_token a0 with
      | some (dd, mm) =>
        match mkDate today.y mm dd with
        | some d => .ok (some (d, 1))
        | none => .error ()
      | none =>
        match rest with
        | [] => .ok none
        | arg1 :: _ =>
          if isDigitStr arg0 && isDigitStr arg1 then
            match mkDate today.y (natOfDigits arg1) (natOfDigits arg0) with
            | some d => .ok (some (d, 2))
            | none => .error ()
          else if isDigitStr arg0 then
            let mword := stripStr (ruLower arg1)
            match RU_MONTHS.lookup mword with
            | some mm =>
              match mkDate today.y mm (natOfDigits arg0) with
              | some d => .ok (some (d, 2))
              | none => .error ()
            | none => .ok none
          else .ok none

/-! ## Schedule alias engine -/

/-- `build_schedule_aliases`: canonical name, its lowercase form, and
the curated per-day extras. -/
def build_schedule_aliases (day_canon : String) : List String :=
  let day_lower := ruLower day_canon
  let extra : List String :=
    if day_canon = "Понедельник" then ["пн", "понедельнк", "mon", "mn"]
    else if day_canon = "Вторник" then ["вт", "tue", "tu"]
    else if day_canon = "Среда" then ["ср", "wed", "we"]
    else if day_canon = "Четверг" then ["чт", "thu", "th"]
    else if day_canon = "Пятница" then ["пт", "fri", "fr"]
    else []
  day_canon :: day_lower :: extra

/-- `normalize_day_query`: strip then lowercase. -/
def normalize_day_query (raw : String) : String :=
  ruLower (stripStr raw)

/-- Python dict assignment `m[k] = v` on an insertion-ordered
association list: overwrite in place, else append. -/
def dictSet (l : List (String × String)) (k : String) (v : String) :
    List (String × String) :=
  match l with
  | [] => [(k, v)]
  | (k0, v0) :: rest =>
    if k0 = k then (k0, v) :: rest else (k0, v0) :: dictSet rest k v

/-- Python dict lookup `m.get(k)` on an association list. -/
def dictGet (l : List (String × String)) (k : String) : Option String :=
  match l with
  | [] => none
  | (k0, v0) :: rest => if k0 = k then some v0 else dictGet rest k

/-! ## Conversation engine: states, scratch data, handlers -/

/-- The conversation states of both `ConversationHandler`s. -/
inductive ConvState where
  | ST_MENU | ST_SET_CHAT | ST_ADD_ADMIN | ST_ADD_STUDENTS
  | ST_EDIT_SCHEDULE | ST_JOKE_ADD | SI_CHAT | SI_PHOTO | SI_TEXT
deriving DecidableEq, Repr

/-- `context.user_data`: the per-session scratch dictionary, one field
per key the program uses (`none` / `[]` = key absent). -/
structure UserData where
  students_added : Option Nat
  schedule_step : Option Nat
  schedule_buf : List (String × String)
  si_chat_id : Option Int
  si_photo_path : Option String
deriving DecidableEq, Repr

/-- Scratch data with no keys set. -/
def UserData.empty : UserData :=
  { students_added := none, schedule_step := none, schedule_buf := [],
    si_chat_id := none, si_photo_path := none }

/-- `cmd_cancel`: replies and returns `ST_MENU`; it does not touch
`context.user_data`. -/
def cmd_cancel (_state : ConvState) (ud : UserData) :
    ConvState × UserData :=
  (ConvState.ST_MENU, ud)

/-- The `menu_router` branch for «📝 Изменить расписание»: reset the
step counter and the draft, enter `ST_EDIT_SCHEDULE`. -/
def menu_enter_edit_schedule (ud : UserData) : ConvState × UserData :=
  (ConvState.ST_EDIT_SCHEDULE,
    { ud with schedule_step := some 0, schedule_buf := [] })

/-- The finalization loop of `st_edit_schedule`: expand every buffered
canonical day through `build_schedule_aliases`, storing each alias
lowercased as its own key. -/
def finalizeSchedule (buf : List (String × String)) :
    List (String × String) :=
  buf.foldl
    (fun acc cv => (build_schedule_aliases cv.1).foldl
      (fun acc2 a => dictSet acc2 (ruLower a) cv.2) acc) []

/-- `st_edit_schedule`: record the message text for the current
weekday; after the fifth entry expand all aliases into lowercase keys
and overwrite `schedule.json`.  The triple is (next state, scratch,
schedule store). -/
def st_edit_schedule (text : String) (ud : UserData)
    (store : List (String × String)) :
    ConvState × UserData × List (String × String) :=
  let step := ud.schedule_step.getD 0
  let buf := ud.schedule_buf
  if step ≥ DOW_CANON.length then (ConvState.ST_MENU, ud, store)
  else
    let day := DOW_CANON.getD step ""
    let buf := dictSet buf day (stripStr text)
    let step := step + 1
    let ud := { ud with schedule_step := some step, schedule_buf := buf }
    if step < DOW_CANON.length then (ConvState.ST_EDIT_SCHEDULE, ud, store)
    else (ConvState.ST_MENU, ud, finalizeSchedule buf)

/-! ## Admin/identity policy -/

/-- The slice of a Telegram `Update` the admin policy reads. -/
structure Upd where
  chat_type : Option String
  username : Option String
deriving DecidableEq, Repr

/-- `is_private`: there is an effective chat and its type is
`"private"`. -/
def is_private (u : Upd) : Bool :=
  match u.chat_type with
  | some t => t = "private"
  | none => false

/-- `username_tag`: `"@username"`, or `""` when the user has no
(non-empty) username. -/
def username_tag (u : Upd) : String :=
  match u.username with
  | none => ""
  | some n => if n = "" then "" else "@" ++ n

/-- `ensure_first_admin_if_empty` as a transformer of the persisted
settings (load and save folded into argument and result). -/
def ensure_first_admin_if_empty (upd : Upd) (s : Settings) : Settings :=
  if !is_private upd then s
  else if !s.admins.isEmpty then s
  else
    let u := username_tag upd
    if u = "" then s
    else { s with admins := [u] }

/-! ## Duty roster entries (`normalize_username_input`, `/d_set`,
student onboarding) -/

def END_WORDS : List String := ["end", "все", "стоп"]

/-- The username validation regex `[A-Za-z0-9_]{3,64}` (full match). -/
def usernameOk (s : String) : Bool :=
  3 ≤ s.data.length && s.data.length ≤ 64 && s.data.all isWordChar

/-- Drop one leading `@` if present (`if s.startswith("@"): s = s[1:]`). -/
def dropAt (s : String) : String :=
  match s.data with
  | '@' :: r => String.mk r
  | _ => s

/-- `normalize_username_input`: strip; detect sentinel words; strip an
optional leading `@`; validate against `[A-Za-z0-9_]{3,64}`; return
`@name`, a lowercase sentinel, or `none`. -/
def normalize_username_input (t : String) : Option String :=
  let s := stripStr t
  if s.data.isEmpty then none
  else if ruLower s ∈ END_WORDS then some (ruLower s)
  else
    let s2 := stripStr (dropAt s)
    if usernameOk s2 then some (String.mk ('@' :: s2.data))
    else none

/-- `duty_entry_from_username`: `"nick, @nick"` where `nick` is the
handle without the `@`. -/
def duty_entry_from_username (u : String) : String :=
  String.mk (u.data.drop 1) ++ ", " ++ u

/-- `str.endswith(suffix)`. -/
def endsWithStr (s suffix : String) : Bool :=
  suffix.data.isSuffixOf s.data

/-- `st_add_students`: one step of the onboarding loop.  Result is
(next state, `students_added` counter, duty roster). -/
def st_add_students (text : String) (count : Nat)
    (duty_list : List String) : ConvState × Nat × List String :=
  let t := stripStr text
  match normalize_username_input t with
  | none => (ConvState.ST_ADD_STUDENTS, count, duty_list)
  | some u =>
    if u ∈ END_WORDS then (ConvState.ST_MENU, count, duty_list)
    else (ConvState.ST_ADD_STUDENTS, count + 1,
      duty_list ++ [duty_entry_from_username u])

/-- `/d_set add <arg>`: append one normalized entry, reject bad input
without touching the roster. -/
def d_set_add (arg : String) (duty_list : List String) : List String :=
  match normalize_username_input arg with
  | none => duty_list
  | some u =>
    if u ∈ END_WORDS then duty_list
    else duty_list ++ [duty_entry_from_username u]

/-- `/d_set remove <arg>`: drop every entry ending in `", @name"`. -/
def d_set_remove (arg : String) (duty_list : List String) :
    List String :=
  match normalize_username_input arg with
  | none => duty_list
  | some u =>
    if u ∈ END_WORDS then duty_list
    else duty_list.filter (fun x => !endsWithStr x (", " ++ u))

/-- `re.split(r"[;\n,]+", raw)`: split on maximal runs of separators;
`inRun` records that the previous character was a separator. -/
def isListSepChar (c : Char) : Bool :=
  c = ';' || c = '\n' || c = ','

def splitSepsGo : List Char → List Char → Bool → List (List Char)
  | [], acc, _ => [acc.reverse]
  | c :: rest, acc, inRun =>
    if isListSepChar c then
      if inRun then splitSepsGo rest acc true
      else acc.reverse :: splitSepsGo rest [] true
    else splitSepsGo rest (c :: acc) false

/-- `/d_set set <raw>`: split the stripped argument, normalize each
part, keep valid handles; an empty result leaves the roster as is. -/
def d_set_set (raw : String) (duty_list : List String) : List String :=
  let parts := (splitSepsGo (stripStr raw).data [] false).map String.mk
  let new_list := parts.filterMap (fun p =>
    match normalize_username_input p with
    | none => none
    | some u => if u ∈ END_WORDS then none
      else some (duty_entry_from_username u))
  if new_list.isEmpty then duty_list else new_list

/-! ## Shared lemmas -/

/-- An entry survives the sweep iff its key fails to parse or its
expiry has not passed. -/
def homeworkRetained (cfg : Config) (today : Nat) (kv : String × String) :
    Bool :=
  match parseIso kv.1 with
  | none => true
  | some d => !(today > expiry_of_homework d cfg)

lemma cleanup_eq_filter (cfg : Config) (today : Nat) :
    ∀ hw : List (String × String),
      cleanup_homework_in_memory hw cfg today =
        (hw.filter (homeworkRetained cfg today),
         hw.countP (fun kv => !homeworkRetained cfg today kv)) := by
  intro hw
  induction hw with
  | nil => rfl
  | cons kv rest ih =>
    obtain ⟨k, v⟩ := kv
    simp only [cleanup_homework_in_memory, ih, List.filter_cons,
      List.countP_cons, homeworkRetained]
    obtain hp | ⟨d, hp⟩ : parseIso k = none ∨ ∃ d, parseIso k = some d := by
      cases parseIso k <;> simp
    · simp only [hp]; simp
    · simp only [hp]
      by_cases hexp : today > expiry_of_homework d cfg
      · simp [hexp]
      · simp [hexp]

lemma homeworkRetained_eq (cfg : Config) (today : Nat)
    (kv : String × String) :
    homeworkRetained cfg today kv =
      (match parseIso kv.1 with
       | none => true
       | some d => decide (today ≤ d + cfg.homework_ttl_days)) := by
  unfold homeworkRetained expiry_of_homework
  cases parseIso kv.1 with
  | none => rfl
  | some d =>
    by_cases h : today ≤ d + cfg.homework_ttl_days
    · simp [h, Nat.not_lt.mpr h]
    · simp [h, Nat.not_le.mp h]

/-- Claim C2: the sweep removes exactly the entries whose key parses as
an ISO date `d` with `d + TTL < today`, keeps an entry iff
`today ≤ d + TTL`, passes unparsable keys through unchanged, and
returns the cleaned map with the removal count; expiry is exactly
`d + TTL`. -/
theorem sweep_removes_exactly_expired (hw : List (String × String))
    (cfg : Config) (today : Nat) :
    (cleanup_homework_in_memory hw cfg today).1 =
      hw.filter (fun kv =>
        match parseIso kv.1 with
        | none => true
        | some d => decide (today ≤ d + cfg.homework_ttl_days)) ∧
    (cleanup_homework_in_memory hw cfg today).2 =
      hw.countP (fun kv =>
        match parseIso kv.1 with
        | none => false
        | some d => decide (d + cfg.homework_ttl_days < today)) ∧
    (∀ d, expiry_of_homework d cfg = d + cfg.homework_ttl_days) := by
  rw [cleanup_eq_filter]
  refine ⟨List.filter_congr fun kv _ => homeworkRetained_eq cfg today kv,
    List.countP_congr fun kv _ => ?_, fun d => rfl⟩
  rw [homeworkRetained_eq]
  cases parseIso kv.1 with
  | none => simp
  | some d =>
    by_cases h : d + cfg.homework_ttl_days < today
    · simp [h, Nat.not_le.mpr h]
    · simp [h, Nat.not_lt.mp h]

/-- Claim C8: the homework sweep is idempotent — sweeping an already
swept map (at the same current date) removes nothing and returns the
map unchanged. -/
theorem sweep_idempotent (hw : List (String × String)) (cfg : Config)
    (today : Nat) :
    cleanup_homework_in_memory
        (cleanup_homework_in_memory hw cfg today).1 cfg today =
      ((cleanup_homework_in_memory hw cfg today).1, 0) := by
  rw [cleanup_eq_filter, cleanup_eq_filter]
  refine Prod.ext ?_ ?_
  · show List.filter _ (List.filter _ hw) = _
    rw [List.filter_filter]
    exact List.filter_congr fun kv _ => by
      cases h : homeworkRetained cfg today kv <;> simp [h]
  · show List.countP _ (List.filter _ hw) = 0
    rw [List.countP_eq_zero]
    intro kv hmem
    rcases List.mem_filter.mp hmem with ⟨_, hret⟩
    simp [hret]

/-- Claim C6: the first-admin bootstrap is a no-op outside private
chats; with an empty admin set and a non-empty handle it persists that
handle as the sole admin; once the admin set is non-empty every call
leaves it unchanged. -/
theorem first_admin_bootstrap (upd : Upd) (s : Settings) :
    (is_private upd = false → ensure_first_admin_if_empty upd s = s) ∧
    (s.admins ≠ [] → ensure_first_admin_if_empty upd s = s) ∧
    (is_private upd = true → s.admins = [] → username_tag upd ≠ "" →
      ensure_first_admin_if_empty upd s =
        { s with admins := [username_tag upd] }) := by
  unfold ensure_first_admin_if_empty
  refine ⟨fun h => by simp [h], fun h => ?_, fun h1 h2 h3 => ?_⟩
  · by_cases hp : is_private upd <;>
      simp [hp, List.isEmpty_iff, h]
  · simp [h1, List.isEmpty_iff, h2, h3]

theorem first_admin_bootstrap_witness :
    ensure_first_admin_if_empty ⟨some "group", some "x"⟩ ⟨none, []⟩ =
      ⟨none, []⟩ ∧
    ensure_first_admin_if_empty ⟨some "private", some "y"⟩
        ⟨none, ["@x"]⟩ = ⟨none, ["@x"]⟩ ∧
    ensure_first_admin_if_empty ⟨some "private", some "x"⟩ ⟨none, []⟩ =
      ⟨none, ["@x"]⟩ :=
  ⟨(first_admin_bootstrap _ _).1 (by decide),
   (first_admin_bootstrap _ _).2.1 (by decide),
   by
    have h := (first_admin_bootstrap ⟨some "private", some "x"⟩
      ⟨none, []⟩).2.2 (by decide) rfl (by decide)
    simpa using h⟩

/-- Claim C7 counterexample: cancelling from a mid-edit session does
not clear the scratch data — the claim's discarded-scratch result is
refuted at this concrete session. -/
theorem cancel_counterexample :
    ¬ (cmd_cancel ConvState.ST_EDIT_SCHEDULE
        { students_added := none, schedule_step := some 2,
          schedule_buf := [("Понедельник", "алгебра"),
            ("Вторник", "физика")],
          si_chat_id := none, si_photo_path := none } =
      (ConvState.ST_MENU, UserData.empty)) := by decide

/-- Claim C7 (amended): the universal cancel returns to `Menu` from
any state and performs no pending action, leaving the scratch data in
place (it is re-initialized at the next entry point); in particular a
schedule edit cancelled after two of the five entries leaves the
persisted schedule untouched. -/
theorem cancel_returns_menu_without_commit :
    (∀ st ud, cmd_cancel st ud = (ConvState.ST_MENU, ud)) ∧
    (∀ (store : List (String × String)) (ud : UserData) (t1 t2 : String),
      (st_edit_schedule t2
          (st_edit_schedule t1 (menu_enter_edit_schedule ud).2 store).2.1
          (st_edit_schedule t1 (menu_enter_edit_schedule ud).2
            store).2.2).2.2 = store ∧
      (cmd_cancel
          (st_edit_schedule t2
            (st_edit_schedule t1 (menu_enter_edit_schedule ud).2
              store).2.1
            (st_edit_schedule t1 (menu_enter_edit_schedule ud).2
              store).2.2).1
          (st_edit_schedule t2
            (st_edit_schedule t1 (menu_enter_edit_schedule ud).2
              store).2.1
            (st_edit_schedule t1 (menu_enter_edit_schedule ud).2
              store).2.2).2.1).1 = ConvState.ST_MENU) :=
  ⟨fun _ _ => rfl, fun _ _ _ _ => ⟨rfl, rfl⟩⟩

def defaultConfig : Config := {}

/-- Claim C9 counterexample: with no broadcast chat configured the
scheduled job sends nothing while the interactive command still
replies, so the two do not always produce identical message text. -/
theorem duty_job_vs_cmd_counterexample :
    duty_reminder_job defaultConfig ⟨none, []⟩ [] (toOrd 2024 9 4) =
        none ∧
    cmd_duty defaultConfig [] (toOrd 2024 9 4) = msgRosterEmpty ∧
    duty_reminder_job defaultConfig ⟨none, []⟩ [] (toOrd 2024 9 4) ≠
      some (cmd_duty defaultConfig [] (toOrd 2024 9 4)) := by
  refine ⟨rfl, rfl, by decide⟩

/-- Claim C9 (amended): whenever a non-zero broadcast chat id is
configured, the scheduled duty-announcement job sends exactly the text
the interactive duty command would reply, for every roster, settings
state, and date. -/
theorem duty_job_matches_cmd (cfg : Config) (s : Settings)
    (roster : List String) (today : Nat) (c : Int)
    (hc : s.chat_id = some c) (h0 : c ≠ 0) :
    duty_reminder_job cfg s roster today =
      some (cmd_duty cfg roster today) := by
  unfold duty_reminder_job cmd_duty
  simp only [hc]
  by_cases h1 : roster.isEmpty <;>
    by_cases h2 : today < cfg.school_start <;>
    by_cases h3 : (is_weekend today || is_holiday today cfg) = true <;>
    simp [h0, h1, h2, h3]

theorem duty_job_matches_cmd_witness :
    duty_reminder_job defaultConfig ⟨some 5, []⟩ ["A"]
        (toOrd 2024 9 4) =
      some (cmd_duty defaultConfig ["A"] (toOrd 2024 9 4)) :=
  duty_job_matches_cmd _ _ _ _ 5 rfl (by decide)

/-- Modelled from the spec's wording for claim C1: the inclusive count
of dates from `cfg.school_start` through `today` that are neither
weekend nor holiday (the start itself counting as day 1 if it
qualifies). -/
def schoolDaysInclusive (cfg : Config) (today : Nat) : Nat :=
  (List.range (today + 1 - cfg.school_start)).countP
    (fun i => !is_weekend (cfg.school_start + i) &&
      !is_holiday (cfg.school_start + i) cfg)

lemma schoolDayGo_eq_countP (cfg : Config) (today : Nat) :
    ∀ fuel d, d + fuel = today + 1 →
      schoolDayGo cfg today fuel d =
        (List.range fuel).countP
          (fun i => !is_weekend (d + i) && !is_holiday (d + i) cfg) := by
  intro fuel
  induction fuel with
  | zero => intro d _; rfl
  | succ n ih =>
    intro d hd
    have hle : d ≤ today := by omega
    rw [List.range_succ_eq_map]
    rw [List.countP_cons, List.countP_map]
    have hrec : schoolDayGo cfg today (n + 1) d =
        (if !is_weekend d && !is_holiday d cfg then 1 else 0) +
          schoolDayGo cfg today n (d + 1) := by
      simp [schoolDayGo, hle]
    rw [hrec, ih (d + 1) (by omega)]
    have hpt : ((fun i => !is_weekend (d + i) && !is_holiday (d + i) cfg)
          ∘ Nat.succ) =
        (fun i => !is_weekend (d + 1 + i) && !is_holiday (d + 1 + i) cfg)
        := by
      funext i
      have : d + Nat.succ i = d + 1 + i := by omega
      simp [Function.comp, this]
    rw [hpt]
    have h0 : d + 0 = d := by omega
    rw [h0]
    by_cases hpd : (!is_weekend d && !is_holiday d cfg) = true <;>
      simp [hpd, Nat.add_comm]

lemma schoolDayLoop_eq (cfg : Config) (today : Nat)
    (h : cfg.school_start ≤ today) :
    schoolDayLoop cfg today cfg.school_start =
      schoolDaysInclusive cfg today := by
  unfold schoolDayLoop schoolDaysInclusive
  exact schoolDayGo_eq_countP cfg today _ _ (by omega)

lemma schoolDaysInclusive_pos (cfg : Config) (today : Nat)
    (h : cfg.school_start ≤ today) (hw : is_weekend today = false)
    (hh : is_holiday today cfg = false) :
    1 ≤ schoolDaysInclusive cfg today := by
  unfold schoolDaysInclusive
  refine List.countP_pos_iff.mpr ⟨today - cfg.school_start, ?_, ?_⟩
  · exact List.mem_range.mpr (by omega)
  · have : cfg.school_start + (today - cfg.school_start) = today := by
      omega
    simp [this, hw, hh]

/-- Claim C1: the interactive duty command follows the four-step
policy — empty roster, date before school start, weekend or holiday,
otherwise the roster entry at `(c - 1) mod n` where `c` is the
inclusive count of school days from the school start through the query
date, that index lying below the roster length. -/
theorem cmd_duty_policy (cfg : Config) (roster : List String)
    (today : Nat) :
    (roster.isEmpty = true → cmd_duty cfg roster today = msgRosterEmpty)
    ∧
    (roster.isEmpty = false → today < cfg.school_start →
      cmd_duty cfg roster today = msgYearNotStarted) ∧
    (roster.isEmpty = false → cfg.school_start ≤ today →
      (is_weekend today || is_holiday today cfg) = true →
      cmd_duty cfg roster today = msgNoDuty) ∧
    (roster.isEmpty = false → cfg.school_start ≤ today →
      is_weekend today = false → is_holiday today cfg = false →
      1 ≤ schoolDaysInclusive cfg today ∧
      (schoolDaysInclusive cfg today - 1) % roster.length <
        roster.length ∧
      cmd_duty cfg roster today =
        "Сегодня дежурный: " ++ roster.getD
          ((schoolDaysInclusive cfg today - 1) % roster.length) "") := by
  refine ⟨fun h => by simp [cmd_duty, h],
    fun h1 h2 => by simp [cmd_duty, h1, h2],
    fun h1 h2 h3 => by simp [cmd_duty, h1, Nat.not_lt.mpr h2, h3],
    fun h1 h2 h3 h4 => ?_⟩
  have hpos : 0 < roster.length :=
    List.length_pos.mpr (by simpa [List.isEmpty_iff] using h1)
  refine ⟨schoolDaysInclusive_pos cfg today h2 h3 h4,
    Nat.mod_lt _ hpos, ?_⟩
  simp only [cmd_duty, h1, Nat.not_lt.mpr h2, h3, h4]
  rw [schoolDayLoop_eq cfg today h2]
  simp

/-- Instantiation of the spec scenario: roster `A B C`, start
`2024-09-02`, no holidays, query `2024-09-04` (school day 3) → entry
`C`. -/
def cfgNoHolidays : Config :=
  { school_start := toOrd 2024 9 2, holiday_periods := [] }

theorem cmd_duty_policy_witness :
    (1 ≤ schoolDaysInclusive cfgNoHolidays (toOrd 2024 9 4) ∧
      (schoolDaysInclusive cfgNoHolidays (toOrd 2024 9 4) - 1) % 3 < 3 ∧
      cmd_duty cfgNoHolidays ["A", "B", "C"] (toOrd 2024 9 4) =
        "Сегодня дежурный: " ++ ["A", "B", "C"].getD
          ((schoolDaysInclusive cfgNoHolidays (toOrd 2024 9 4) - 1) % 3)
          "") ∧
    cmd_duty cfgNoHolidays ["A", "B", "C"] (toOrd 2024 9 4) =
      "Сегодня дежурный: C" :=
  ⟨(cmd_duty_policy cfgNoHolidays ["A", "B", "C"]
      (toOrd 2024 9 4)).2.2.2 (by decide) (by decide) (by decide)
      (by decide),
   by decide⟩

/-- The schedule map persisted by a complete five-step edit run
(Monday through Friday texts `t1 … t5`), starting from any prior store
contents. -/
def scheduleAfterEdit (store : List (String × String))
    (t1 t2 t3 t4 t5 : String) : List (String × String) :=
  let e := menu_enter_edit_schedule UserData.empty
  let r1 := st_edit_schedule t1 e.2 store
  let r2 := st_edit_schedule t2 r1.2.1 r1.2.2
  let r3 := st_edit_schedule t3 r2.2.1 r2.2.2
  let r4 := st_edit_schedule t4 r3.2.1 r3.2.2
  let r5 := st_edit_schedule t5 r4.2.1 r4.2.2
  r5.2.2

/-- Scratch data mid-way through a schedule edit. -/
def udStep (n : Nat) (buf : List (String × String)) : UserData :=
  { UserData.empty with schedule_step := some n, schedule_buf := buf }

lemma menu_enter_eval :
    menu_enter_edit_schedule UserData.empty =
      (ConvState.ST_EDIT_SCHEDULE, udStep 0 []) := rfl

lemma st_edit_step0 (t : String) (store : List (String × String)) :
    st_edit_schedule t (udStep 0 []) store =
      (ConvState.ST_EDIT_SCHEDULE,
        udStep 1 [("Понедельник", stripStr t)], store) := rfl

lemma st_edit_step1 (t : String) (b store : List (String × String)) :
    st_edit_schedule t (udStep 1 b) store =
      (ConvState.ST_EDIT_SCHEDULE,
        udStep 2 (dictSet b "Вторник" (stripStr t)), store) := rfl

lemma st_edit_step2 (t : String) (b store : List (String × String)) :
    st_edit_schedule t (udStep 2 b) store =
      (ConvState.ST_EDIT_SCHEDULE,
        udStep 3 (dictSet b "Среда" (stripStr t)), store) := rfl

lemma st_edit_step3 (t : String) (b store : List (String × String)) :
    st_edit_schedule t (udStep 3 b) store =
      (ConvState.ST_EDIT_SCHEDULE,
        udStep 4 (dictSet b "Четверг" (stripStr t)), store) := rfl

lemma st_edit_step4 (t : String) (b store : List (String × String)) :
    st_edit_schedule t (udStep 4 b) store =
      (ConvState.ST_MENU, udStep 5 (dictSet b "Пятница" (stripStr t)),
        finalizeSchedule (dictSet b "Пятница" (stripStr t))) := rfl

lemma build_aliases_eval :
    build_schedule_aliases "Понедельник" =
        ["Понедельник", "понедельник", "пн", "понедельнк", "mon", "mn"] ∧
    build_schedule_aliases "Вторник" =
        ["Вторник", "вторник", "вт", "tue", "tu"] ∧
    build_schedule_aliases "Среда" = ["Среда", "среда", "ср", "wed", "we"]
    ∧
    build_schedule_aliases "Четверг" =
        ["Четверг", "четверг", "чт", "thu", "th"] ∧
    build_schedule_aliases "Пятница" =
        ["Пятница", "пятница", "пт", "fri", "fr"] := by decide

lemma ruLower_eval_mon :
    ruLower "Понедельник" = "понедельник" ∧
    ruLower "понедельник" = "понедельник" ∧ ruLower "пн" = "пн" ∧
    ruLower "понедельнк" = "понедельнк" ∧ ruLower "mon" = "mon" ∧
    ruLower "mn" = "mn" := by decide

lemma ruLower_eval_tue :
    ruLower "Вторник" = "вторник" ∧ ruLower "вторник" = "вторник" ∧
    ruLower "вт" = "вт" ∧ ruLower "tue" = "tue" ∧ ruLower "tu" = "tu" :=
  by decide

lemma ruLower_eval_wed :
    ruLower "Среда" = "среда" ∧ ruLower "среда" = "среда" ∧
    ruLower "ср" = "ср" ∧ ruLower "wed" = "wed" ∧ ruLower "we" = "we" :=
  by decide

lemma ruLower_eval_thu :
    ruLower "Четверг" = "четверг" ∧ ruLower "четверг" = "четверг" ∧
    ruLower "чт" = "чт" ∧ ruLower "thu" = "thu" ∧ ruLower "th" = "th" :=
  by decide

lemma ruLower_eval_fri :
    ruLower "Пятница" = "пятница" ∧ ruLower "пятница" = "пятница" ∧
    ruLower "пт" = "пт" ∧ ruLower "fri" = "fri" ∧ ruLower "fr" = "fr" :=
  by decide

set_option maxHeartbeats 1000000 in
lemma scheduleAfterEdit_eq (store : List (String × String))
    (t1 t2 t3 t4 t5 : String) :
    scheduleAfterEdit store t1 t2 t3 t4 t5 =
      [("понедельник", stripStr t1), ("пн", stripStr t1),
       ("понедельнк", stripStr t1), ("mon", stripStr t1),
       ("mn", stripStr t1),
       ("вторник", stripStr t2), ("вт", stripStr t2),
       ("tue", stripStr t2), ("tu", stripStr t2),
       ("среда", stripStr t3), ("ср", stripStr t3),
       ("wed", stripStr t3), ("we", stripStr t3),
       ("четверг", stripStr t4), ("чт", stripStr t4),
       ("thu", stripStr t4), ("th", stripStr t4),
       ("пятница", stripStr t5), ("пт", stripStr t5),
       ("fri", stripStr t5), ("fr", stripStr t5)] := by
  unfold scheduleAfterEdit
  simp [menu_enter_eval, st_edit_step0, st_edit_step1, st_edit_step2,
    st_edit_step3, st_edit_step4, dictSet, finalizeSchedule,
    build_aliases_eval.1, build_aliases_eval.2.1, build_aliases_eval.2.2.1,
    build_aliases_eval.2.2.2.1, build_aliases_eval.2.2.2.2,
    ruLower_eval_mon.1, ruLower_eval_mon.2.1, ruLower_eval_mon.2.2.1,
    ruLower_eval_mon.2.2.2.1, ruLower_eval_mon.2.2.2.2.1,
    ruLower_eval_mon.2.2.2.2.2,
    ruLower_eval_tue.1, ruLower_eval_tue.2.1, ruLower_eval_tue.2.2.1,
    ruLower_eval_tue.2.2.2.1, ruLower_eval_tue.2.2.2.2,
    ruLower_eval_wed.1, ruLower_eval_wed.2.1, ruLower_eval_wed.2.2.1,
    ruLower_eval_wed.2.2.2.1, ruLower_eval_wed.2.2.2.2,
    ruLower_eval_thu.1, ruLower_eval_thu.2.1, ruLower_eval_thu.2.2.1,
    ruLower_eval_thu.2.2.2.1, ruLower_eval_thu.2.2.2.2,
    ruLower_eval_fri.1, ruLower_eval_fri.2.1, ruLower_eval_fri.2.2.1,
    ruLower_eval_fri.2.2.2.1, ruLower_eval_fri.2.2.2.2]

/-- Claim C5: for every weekday and every alias `build_schedule_aliases`
produces for it, normalizing the alias yields a key present in the map
persisted at schedule-edit completion, and that key holds the same text
as the canonical key. -/
theorem schedule_aliases_resolve (store : List (String × String))
    (t1 t2 t3 t4 t5 : String) (d a : String) (hd : d ∈ DOW_CANON)
    (ha : a ∈ build_schedule_aliases d) :
    dictGet (scheduleAfterEdit store t1 t2 t3 t4 t5)
        (normalize_day_query a) ≠ none ∧
    dictGet (scheduleAfterEdit store t1 t2 t3 t4 t5)
        (normalize_day_query a) =
      dictGet (scheduleAfterEdit store t1 t2 t3 t4 t5)
        (normalize_day_query d) := by
  rw [scheduleAfterEdit_eq]
  fin_cases hd <;>
    · simp only [build_schedule_aliases] at ha
      fin_cases ha <;> exact ⟨fun h => Option.noConfusion h, rfl⟩

theorem schedule_aliases_resolve_witness :
    dictGet (scheduleAfterEdit [] "a" "b" "c" "d" "e")
        (normalize_day_query "wed") ≠ none ∧
    dictGet (scheduleAfterEdit [] "a" "b" "c" "d" "e")
        (normalize_day_query "wed") =
      dictGet (scheduleAfterEdit [] "a" "b" "c" "d" "e")
        (normalize_day_query "Среда") :=
  schedule_aliases_resolve [] "a" "b" "c" "d" "e" "Среда" "wed"
    (by decide) (by decide)

/-- The duty-roster entry-shape invariant: `"name, @name"` with `name`
matching the username regex. -/
def isDutyEntry (e : String) : Prop :=
  ∃ name : String, usernameOk name = true ∧ e = name ++ ", @" ++ name

lemma normalize_some_shape (t u : String)
    (h : normalize_username_input t = some u) (hne : u ∉ END_WORDS) :
    ∃ name : String, usernameOk name = true ∧
      u = String.mk ('@' :: name.data) := by
  by_cases h1 : (stripStr t).data.isEmpty
  · simp [normalize_username_input, h1] at h
  · by_cases h2 : ruLower (stripStr t) ∈ END_WORDS
    · simp [normalize_username_input, h1, h2] at h
      exact absurd (h ▸ h2) hne
    · by_cases h3 : usernameOk (stripStr (dropAt (stripStr t))) = true
      · simp [normalize_username_input, h1, h2, h3] at h
        exact ⟨_, h3, h.symm⟩
      · simp [normalize_username_input, h1, h2, h3] at h

lemma duty_entry_shape (name : String) (hok : usernameOk name = true) :
    isDutyEntry (duty_entry_from_username
      (String.mk ('@' :: name.data))) := by
  refine ⟨name, hok, ?_⟩
  show String.mk ((name.data ++ [',', ' ']) ++ ('@' :: name.data)) =
    String.mk ((name.data ++ [',', ' ', '@']) ++ name.data)
  exact congrArg String.mk (by simp)

lemma normalize_valid_entry (t u : String)
    (h : normalize_username_input t = some u) (hne : u ∉ END_WORDS) :
    isDutyEntry (duty_entry_from_username u) := by
  obtain ⟨name, hok, rfl⟩ := normalize_some_shape t u h hne
  exact duty_entry_shape name hok

/-- Claim C10: roster entries produced by onboarding and by the
add/set commands have the exact `"name, @name"` shape with a
regex-valid name; non-matching inputs leave the roster unchanged;
removal deletes precisely the entries with the `", @name"` suffix; and
every roster operation preserves the shape invariant. -/
theorem roster_entry_shape :
    (∀ t u, normalize_username_input t = some u → u ∉ END_WORDS →
      isDutyEntry (duty_entry_from_username u)) ∧
    (∀ arg l, normalize_username_input arg = none → d_set_add arg l = l)
    ∧
    (∀ arg l u, normalize_username_input arg = some u →
      u ∈ END_WORDS → d_set_add arg l = l) ∧
    (∀ arg l u, normalize_username_input arg = some u →
      u ∉ END_WORDS →
      d_set_add arg l = l ++ [duty_entry_from_username u]) ∧
    (∀ arg l u, normalize_username_input arg = some u →
      u ∉ END_WORDS →
      d_set_remove arg l =
        l.filter (fun x => !endsWithStr x (", " ++ u))) ∧
    (∀ t c l, normalize_username_input (stripStr t) = none →
      st_add_students t c l = (ConvState.ST_ADD_STUDENTS, c, l)) ∧
    (∀ t c l u, normalize_username_input (stripStr t) = some u →
      u ∉ END_WORDS →
      st_add_students t c l = (ConvState.ST_ADD_STUDENTS, c + 1,
        l ++ [duty_entry_from_username u])) ∧
    (∀ l, (∀ e ∈ l, isDutyEntry e) →
      (∀ arg e, e ∈ d_set_add arg l → isDutyEntry e) ∧
      (∀ arg e, e ∈ d_set_remove arg l → isDutyEntry e) ∧
      (∀ raw e, e ∈ d_set_set raw l → isDutyEntry e) ∧
      (∀ t c e, e ∈ (st_add_students t c l).2.2 → isDutyEntry e)) := by
  refine ⟨normalize_valid_entry,
    fun arg l h => by simp [d_set_add, h],
    fun arg l u h hmem => by simp [d_set_add, h, hmem],
    fun arg l u h hmem => by simp [d_set_add, h, hmem],
    fun arg l u h hmem => by simp [d_set_remove, h, hmem],
    fun t c l h => by simp [st_add_students, h],
    fun t c l u h hmem => by simp [st_add_students, h, hmem],
    fun l hl => ⟨?_, ?_, ?_, ?_⟩⟩
  · intro arg e he
    cases hn : normalize_username_input arg with
    | none => exact hl e (by simpa [d_set_add, hn] using he)
    | some u =>
      by_cases hmem : u ∈ END_WORDS
      · exact hl e (by simpa [d_set_add, hn, hmem] using he)
      · rw [d_set_add, hn] at he
        simp only [if_neg hmem] at he
        rcases List.mem_append.mp he with h | h
        · exact hl e h
        · rw [List.mem_singleton] at h
          exact h ▸ normalize_valid_entry arg u hn hmem
  · intro arg e he
    cases hn : normalize_username_input arg with
    | none => exact hl e (by simpa [d_set_remove, hn] using he)
    | some u =>
      by_cases hmem : u ∈ END_WORDS
      · exact hl e (by simpa [d_set_remove, hn, hmem] using he)
      · rw [d_set_remove, hn] at he
        simp only [if_neg hmem] at he
        exact hl e (List.mem_filter.mp he).1
  · intro raw e he
    rw [d_set_set] at he
    split_ifs at he with hempty
    · exact hl e he
    · rcases List.mem_filterMap.mp he with ⟨p, _, hf⟩
      cases hn : normalize_username_input p with
      | none => simp [hn] at hf
      | some u =>
        simp only [hn] at hf
        split_ifs at hf with hmem
        all_goals
          first
            | exact Option.noConfusion hf
            | (rw [Option.some_inj] at hf
               exact hf ▸ normalize_valid_entry p u hn hmem)
  · intro t c e he
    cases hn : normalize_username_input (stripStr t) with
    | none => exact hl e (by simpa [st_add_students, hn] using he)
    | some u =>
      by_cases hmem : u ∈ END_WORDS
      · exact hl e (by simpa [st_add_students, hn, hmem] using he)
      · rw [st_add_students, hn] at he
        simp only [if_neg hmem] at he
        rcases List.mem_append.mp he with h | h
        · exact hl e h
        · rw [List.mem_singleton] at h
          exact h ▸ normalize_valid_entry (stripStr t) u hn hmem

theorem roster_entry_shape_witness :
    isDutyEntry (duty_entry_from_username "@abc") ∧
    d_set_add "@abc" ["xyz, @xyz"] = ["xyz, @xyz", "abc, @abc"] ∧
    d_set_remove "xyz" ["xyz, @xyz", "abc, @abc"] =
      ["xyz, @xyz", "abc, @abc"].filter
        (fun x => !endsWithStr x (", " ++ "@xyz")) ∧
    (∀ e, e ∈ d_set_add "??" ["abc, @abc"] → isDutyEntry e) :=
  ⟨roster_entry_shape.1 "@abc" "@abc" (by decide) (by decide),
   by rw [roster_entry_shape.2.2.2.1 "@abc" _ "@abc" (by decide)
       (by decide)]; decide,
   roster_entry_shape.2.2.2.2.1 "xyz" _ "@xyz" (by decide) (by decide),
   fun e he =>
    ((roster_entry_shape.2.2.2.2.2.2.2 ["abc, @abc"]
      (fun e' he' => by
        rw [List.mem_singleton] at he'
        exact he' ▸ ⟨"abc", by decide, by decide⟩)).1 "??" e he)⟩

/-! ## Lemmas about digit tokens for the date parser -/

lemma ruLowerChar_digit (c : Char) (h : isDigitChar c = true) :
    ruLowerChar c = c := by
  unfold isDigitChar at h
  simp only [Bool.and_eq_true, decide_eq_true_eq] at h
  unfold ruLowerChar
  rw [if_neg (by omega), if_neg (by omega), if_neg (by omega)]

lemma isSpaceChar_digit (c : Char) (h : isDigitChar c = true) :
    isSpaceChar c = false := by
  unfold isDigitChar at h
  simp only [Bool.and_eq_true, decide_eq_true_eq] at h
  unfold isSpaceChar
  simp only [Bool.or_eq_false_iff, Bool.and_eq_false_iff]
  constructor
  · simp only [decide_eq_false_iff_not]; omega
  · right; simp only [decide_eq_false_iff_not]; omega

lemma sep_of_digit (c : Char) (h : isDigitChar c = true) :
    isDateSepChar c = false := by
  unfold isDateSepChar
  simp only [Bool.or_eq_false_iff, decide_eq_false_iff_not]
  refine ⟨⟨?_, ?_⟩, ?_⟩ <;> rintro rfl <;> exact absurd h (by decide)

lemma map_ruLower_digits (l : List Char) (h : l.all isDigitChar = true) :
    l.map ruLowerChar = l := by
  induction l with
  | nil => rfl
  | cons c rest ih =>
    rw [List.all_cons, Bool.and_eq_true] at h
    rw [List.map_cons, ruLowerChar_digit c h.1, ih h.2]

lemma dropWhile_space_digits (l : List Char)
    (h : l.all isDigitChar = true) : l.dropWhile isSpaceChar = l := by
  cases l with
  | nil => rfl
  | cons c rest =>
    rw [List.all_cons, Bool.and_eq_true] at h
    rw [List.dropWhile_cons, isSpaceChar_digit c h.1]
    simp

lemma stripList_digits (l : List Char) (h : l.all isDigitChar = true) :
    stripList l = l := by
  unfold stripList
  rw [dropWhile_space_digits l h,
    dropWhile_space_digits l.reverse (by rw [List.all_reverse]; exact h),
    List.reverse_reverse]

lemma isDigitStr_all (a : String) (h : isDigitStr a = true) :
    a.data.all isDigitChar = true := by
  unfold isDigitStr at h
  rw [Bool.and_eq_true] at h
  exact h.2

lemma stripStr_ruLower_digits (a : String) (h : isDigitStr a = true) :
    stripStr (ruLower a) = a := by
  have hall := isDigitStr_all a h
  show String.mk (stripList ((String.mk (a.data.map ruLowerChar)).data))
    = a
  rw [show (String.mk (a.data.map ruLowerChar)).data
      = a.data.map ruLowerChar from rfl,
    map_ruLower_digits a.data hall, stripList_digits a.data hall]

lemma numtok_digits_none (a : String) (h : isDigitStr a = true) :
    parse_numeric_date_token a = none := by
  have hall := isDigitStr_all a h
  unfold parse_numeric_date_token
  rw [stripList_digits a.data hall]
  revert hall
  generalize a.data = l
  intro hall
  rcases l with _ | ⟨c1, _ | ⟨c2, _ | ⟨c3, _ | ⟨c4, _ | ⟨c5, rest⟩⟩⟩⟩⟩
  · rfl
  · rfl
  · rfl
  · simp only [List.all_cons, List.all_nil, Bool.and_eq_true] at hall
    simp [sep_of_digit c2 hall.2.1]
  · simp only [List.all_cons, List.all_nil, Bool.and_eq_true] at hall
    simp [sep_of_digit c2 hall.2.1, sep_of_digit c3 hall.2.2.1]
  · cases rest with
    | nil =>
      simp only [List.all_cons, List.all_nil, Bool.and_eq_true] at hall
      simp [sep_of_digit c3 hall.2.2.1]
    | cons c6 rest2 => rfl

lemma lookup_mem_keys (l : List (String × Nat)) (k : String) (v : Nat)
    (h : List.lookup k l = some v) : k ∈ l.map Prod.fst := by
  induction l with
  | nil => simp [List.lookup] at h
  | cons p rest ih =>
    obtain ⟨k0, v0⟩ := p
    rw [List.lookup_cons] at h
    by_cases hk : (k == k0) = true
    · simp only [List.map_cons, List.mem_cons]
      exact Or.inl (eq_of_beq hk)
    · rw [Bool.not_eq_true] at hk
      rw [hk] at h
      exact List.mem_cons_of_mem _ (ih h)

lemma numtok_words_none :
    ∀ w ∈ ("завтра" :: (DOW_SHORT ++ DOW_FULL)),
      parse_numeric_date_token w = none := by decide

lemma words_not_digit :
    ∀ w ∈ ("завтра" :: (DOW_SHORT ++ DOW_FULL)),
      isDigitStr w = false := by decide

lemma month_keys_not_digit :
    ∀ w ∈ RU_MONTHS.map Prod.fst, isDigitStr w = false := by decide

/-- Claim C3: the homework date parser attempts its rules in the fixed
order — literal tomorrow; short weekday; full weekday; one numeric
`D.M`-style token; two all-digit tokens; digit token plus month name —
and returns the first match with its consumed-token count. -/
theorem parse_rules_in_order :
    (∀ (today : Ymd) (a : String) (rest : List String),
      stripStr (ruLower a) = "завтра" →
      parse_date_and_consumed today (a :: rest) =
        .ok (some (today.ord + 1, 1))) ∧
    (∀ (today : Ymd) (a : String) (rest : List String),
      stripStr (ruLower a) ∈ DOW_SHORT →
      parse_date_and_consumed today (a :: rest) =
        .ok (some (next_weekday today
          (DOW_SHORT.indexOf (stripStr (ruLower a))), 1))) ∧
    (∀ (today : Ymd) (a : String) (rest : List String),
      stripStr (ruLower a) ∈ DOW_FULL →
      parse_date_and_consumed today (a :: rest) =
        .ok (some (next_weekday today
          (DOW_FULL.indexOf (stripStr (ruLower a))), 1))) ∧
    (∀ (today : Ymd) (a : String) (rest : List String) (dd mm d : Nat),
      parse_numeric_date_token (stripStr (ruLower a)) = some (dd, mm) →
      mkDate today.y mm dd = some d →
      parse_date_and_consumed today (a :: rest) = .ok (some (d, 1))) ∧
    (∀ (today : Ymd) (a b : String) (rest : List String) (d : Nat),
      isDigitStr a = true → isDigitStr b = true →
      mkDate today.y (natOfDigits b) (natOfDigits a) = some d →
      parse_date_and_consumed today (a :: b :: rest) =
        .ok (some (d, 2))) ∧
    (∀ (today : Ymd) (a b : String) (rest : List String) (mm d : Nat),
      isDigitStr a = true →
      RU_MONTHS.lookup (stripStr (ruLower b)) = some mm →
      mkDate today.y mm (natOfDigits a) = some d →
      parse_date_and_consumed today (a :: b :: rest) =
        .ok (some (d, 2))) := by
  refine ⟨?_, ?_, ?_, ?_, ?_, ?_⟩
  · intro today a rest h1
    simp only [parse_date_and_consumed]
    rw [if_pos h1]
  · intro today a rest h
    have hne : ¬(stripStr (ruLower a) = "завтра") :=
      (by decide : ∀ w ∈ DOW_SHORT, ¬(w = "завтра")) _ h
    simp only [parse_date_and_consumed]
    rw [if_neg hne, if_pos h]
  · intro today a rest h
    have hne1 : ¬(stripStr (ruLower a) = "завтра") :=
      (by decide : ∀ w ∈ DOW_FULL, ¬(w = "завтра")) _ h
    have hne2 : ¬(stripStr (ruLower a) ∈ DOW_SHORT) :=
      (by decide : ∀ w ∈ DOW_FULL, ¬(w ∈ DOW_SHORT)) _ h
    simp only [parse_date_and_consumed]
    rw [if_neg hne1, if_neg hne2, if_pos h]
  · intro today a rest dd mm d htok hmk
    have hne1 : ¬(stripStr (ruLower a) = "завтра") := by
      intro heq
      rw [heq, numtok_words_none "завтра" (by simp)] at htok
      exact Option.noConfusion htok
    have hne2 : ¬(stripStr (ruLower a) ∈ DOW_SHORT) := by
      intro hm
      rw [numtok_words_none _ (List.mem_cons_of_mem _
        (List.mem_append_left _ hm))] at htok
      exact Option.noConfusion htok
    have hne3 : ¬(stripStr (ruLower a) ∈ DOW_FULL) := by
      intro hm
      rw [numtok_words_none _ (List.mem_cons_of_mem _
        (List.mem_append_right _ hm))] at htok
      exact Option.noConfusion htok
    simp only [parse_date_and_consumed]
    rw [if_neg hne1, if_neg hne2, if_neg hne3]
    simp only [htok, hmk]
  · intro today a b rest d hda hdb hmk
    have ha0 : stripStr (ruLower a) = a := stripStr_ruLower_digits a hda
    have hne1 : ¬(stripStr (ruLower a) = "завтра") := by
      rw [ha0]; intro heq
      rw [heq] at hda; exact absurd hda (by decide)
    have hne2 : ¬(stripStr (ruLower a) ∈ DOW_SHORT) := by
      rw [ha0]; intro hm
      rw [words_not_digit a (List.mem_cons_of_mem _
        (List.mem_append_left _ hm))] at hda
      exact Bool.noConfusion hda
    have hne3 : ¬(stripStr (ruLower a) ∈ DOW_FULL) := by
      rw [ha0]; intro hm
      rw [words_not_digit a (List.mem_cons_of_mem _
        (List.mem_append_right _ hm))] at hda
      exact Bool.noConfusion hda
    have htok_none :
        parse_numeric_date_token (stripStr (ruLower a)) = none := by
      rw [ha0]; exact numtok_digits_none a hda
    simp only [parse_date_and_consumed]
    rw [if_neg hne1, if_neg hne2, if_neg hne3]
    simp only [htok_none, hda, hdb, Bool.and_self, if_true, hmk]
  · intro today a b rest mm d hda hlook hmk
    have hdb : isDigitStr b = false := by
      by_cases hb : isDigitStr b = true
      · rw [stripStr_ruLower_digits b hb] at hlook
        rw [month_keys_not_digit b
          (lookup_mem_keys RU_MONTHS b mm hlook)] at hb
        exact Bool.noConfusion hb
      · simp at hb; exact hb
    have ha0 : stripStr (ruLower a) = a := stripStr_ruLower_digits a hda
    have hne1 : ¬(stripStr (ruLower a) = "завтра") := by
      rw [ha0]; intro heq
      rw [heq] at hda; exact absurd hda (by decide)
    have hne2 : ¬(stripStr (ruLower a) ∈ DOW_SHORT) := by
      rw [ha0]; intro hm
      rw [words_not_digit a (List.mem_cons_of_mem _
        (List.mem_append_left _ hm))] at hda
      exact Bool.noConfusion hda
    have hne3 : ¬(stripStr (ruLower a) ∈ DOW_FULL) := by
      rw [ha0]; intro hm
      rw [words_not_digit a (List.mem_cons_of_mem _
        (List.mem_append_right _ hm))] at hda
      exact Bool.noConfusion hda
    have htok_none :
        parse_numeric_date_token (stripStr (ruLower a)) = none := by
      rw [ha0]; exact numtok_digits_none a hda
    simp only [parse_date_and_consumed]
    rw [if_neg hne1, if_neg hne2, if_neg hne3]
    simp only [htok_none, hda, hdb, Bool.and_false, Bool.false_eq_true,
      if_false, if_true, hlook, hmk]

theorem parse_rules_in_order_witness :
    parse_date_and_consumed ⟨2024, 9, 2⟩ ["завтра"] =
      .ok (some ((⟨2024, 9, 2⟩ : Ymd).ord + 1, 1)) ∧
    parse_date_and_consumed ⟨2024, 9, 2⟩ ["пн"] =
      .ok (some (next_weekday ⟨2024, 9, 2⟩
        (DOW_SHORT.indexOf (stripStr (ruLower "пн"))), 1)) ∧
    parse_date_and_consumed ⟨2024, 9, 2⟩ ["среда"] =
      .ok (some (next_weekday ⟨2024, 9, 2⟩
        (DOW_FULL.indexOf (stripStr (ruLower "среда"))), 1)) ∧
    parse_date_and_consumed ⟨2024, 9, 2⟩ ["25.01"] =
      .ok (some (toOrd 2024 1 25, 1)) ∧
    parse_date_and_consumed ⟨2024, 9, 2⟩ ["25", "1"] =
      .ok (some (toOrd 2024 1 25, 2)) ∧
    parse_date_and_consumed ⟨2024, 9, 2⟩ ["25", "января"] =
      .ok (some (toOrd 2024 1 25, 2)) :=
  ⟨parse_rules_in_order.1 ⟨2024, 9, 2⟩ "завтра" [] (by decide),
   parse_rules_in_order.2.1 ⟨2024, 9, 2⟩ "пн" [] (by decide),
   parse_rules_in_order.2.2.1 ⟨2024, 9, 2⟩ "среда" [] (by decide),
   parse_rules_in_order.2.2.2.1 ⟨2024, 9, 2⟩ "25.01" [] 25 1 _
     (by decide) (by decide),
   parse_rules_in_order.2.2.2.2.1 ⟨2024, 9, 2⟩ "25" "1" [] _
     (by decide) (by decide) (by decide),
   parse_rules_in_order.2.2.2.2.2 ⟨2024, 9, 2⟩ "25" "января" [] 1 _
     (by decide) (by decide) (by decide)⟩

/-- Claim C4: evaluation of the parser at the claim's failing inputs —
tokens matching a numeric pattern but denoting a non-existent calendar
date make the `date` constructor raise a `ValueError` that
`parse_date_and_consumed` does not catch, so the parser is not total. -/
theorem parse_date_not_total :
    parse_date_and_consumed ⟨2024, 9, 2⟩ ["31.02"] = .error () ∧
    parse_date_and_consumed ⟨2024, 9, 2⟩ ["99", "5"] = .error () := by
  exact ⟨by decide, by decide⟩

end SchoolBot
